import Mathlib

/-!
Verification of the nebulastudio image-alignment core.

This file gives a shallow embedding of the numeric parts of
`src/nebulastudio/diff.py` and
`src/nebulastudio/dockwidgets/image_alignment.py`, and settles the claims
of the specification against it.

Modelling conventions:
* numpy arrays of dtype uint64 are modelled by `Nat` samples together with
  explicit `% 2 ^ 64` wherever the dtype can wrap (subtraction,
  multiplication, summation).  `numpy.abs` on an unsigned array is the
  identity, so `a - b` followed by `abs` is just the wrapped difference.
* `astype(numpy.int64)` on a uint64 array reinterprets each sample
  mod `2 ^ 64` into the range `[-2 ^ 63, 2 ^ 63)`; this is `i64OfU64`.
* in-place numpy mutation (`image -= min`, slice assignment) is modelled by
  returning the final contents of the mutated array explicitly.
* fallible operations return `Except` / are guarded by the same conditions
  as the source; GUI objects (pixmaps, dock widgets) are modelled by the
  numeric arrays they are built from.
-/

namespace NebulaStudio

/-- `2 ^ 64`, the modulus of numpy's uint64 arithmetic. -/
def U64 : Nat := 2 ^ 64

/-- `2 ^ 63`, the magnitude bound of numpy's int64 arithmetic. -/
def TWO63 : Nat := 2 ^ 63

/-- Wrapped uint64 subtraction `a - b` as numpy computes it on uint64
arrays; `numpy.abs` of the result is the identity. -/
def wsub (a b : Nat) : Nat := (a % U64 + (U64 - b % U64)) % U64

/-- Sum `f 0 + f 1 + ... + f (n-1)`, the elementwise accumulation behind
`numpy.sum` (order is irrelevant for `Nat` addition). -/
def sumN : Nat → (Nat → Nat) → Nat
  | 0, _ => 0
  | n + 1, f => sumN n f + f n

/-- Reinterpretation of a uint64 sample as int64 (`astype(numpy.int64)`). -/
def i64OfU64 (n : Nat) : Int :=
  if n % U64 < TWO63 then ((n % U64 : Nat) : Int) else ((n % U64 : Nat) : Int) - ((U64 : Nat) : Int)

/-- Wrapping of an integer into the int64 range, as numpy's int64
arithmetic does on overflow. -/
def i64Wrap (z : Int) : Int := (z + ((TWO63 : Nat) : Int)) % ((U64 : Nat) : Int) - ((TWO63 : Nat) : Int)

/-- `numpy.abs` on int64: ordinary absolute value except that the minimal
int64 wraps to itself. -/
def i64abs (z : Int) : Int := if z = -((TWO63 : Nat) : Int) then z else |z|

/-- Reinterpretation of an int64 value as uint64 (`astype(numpy.uint64)`). -/
def u64OfI64 (z : Int) : Nat := (z % ((U64 : Nat) : Int)).toNat

/-- One sample of `abs(a.astype(int64) - b.astype(int64)).astype(uint64)`,
the elementwise pipeline used for the displayed diff in `set_images`. -/
def absDiffPix (a b : Nat) : Nat := u64OfI64 (i64abs (i64Wrap (i64OfU64 a - i64OfU64 b)))

/-- One sample of `(a - b).astype(int64).clip(min=0).astype(uint64)` on
uint64 inputs, the clamped positive part used by `construct_diff_ndarray`. -/
def posPart (a b : Nat) : Nat := (max (i64OfU64 (wsub a b)) 0).toNat

/-- A numpy array of shape `(h, w, c)` with uint64 samples.  Out-of-range
indices are junk (never read by the embedded operations on in-range data). -/
structure Buf where
  h : Nat
  w : Nat
  c : Nat
  data : Nat → Nat → Nat → Nat

/-- Normalisation of a Python slice endpoint against an axis of length `n`:
negative indices count from the end, and the result is clamped to `[0, n]`. -/
def pyIdx (i : Int) (n : Nat) : Nat :=
  if i < 0 then (min ((i + (n : Int)).toNat) n) else (min i.toNat n)

/-- `b[r0:r1, c0:c1]` (with `.copy()`): slicing along the first two axes,
keeping every channel. -/
def crop (b : Buf) (r0 r1 c0 c1 : Int) : Buf :=
  let rs := pyIdx r0 b.h
  let re := pyIdx r1 b.h
  let cs := pyIdx c0 b.w
  let ce := pyIdx c1 b.w
  { h := re - rs, w := ce - cs, c := b.c,
    data := fun i j k => b.data (rs + i) (cs + j) k }

/-- The score the search loop of `find_best_alignment` computes at offset
`(x, y)`:
`numpy.sum(numpy.abs(sub_image - sub_image_other_cropped))` on uint64
arrays, i.e. the sum over all rows, columns and channels of the wrapped
difference, the accumulation itself wrapping mod `2 ^ 64`. -/
def score (probe search : Buf) (x y : Nat) : Nat :=
  (sumN probe.h fun i => sumN probe.w fun j => sumN probe.c fun k =>
    wsub (probe.data i j k) (search.data (x + i) (y + j) k)) % U64

/-- The score claim C1 describes: a single scoring channel (channel 0) and
a true absolute difference.  Defined from the specification's words, for
comparison with `score` (which is defined from the source). -/
def specScoreC1 (probe search : Buf) (x y : Nat) : Nat :=
  sumN probe.h fun i => sumN probe.w fun j =>
    Nat.dist (probe.data i j 0) (search.data (x + i) (y + j) 0)

/-- One iteration of the search loop: replace the running best exactly when
the new score is strictly smaller.  The initial `best_score = numpy.inf`
of the source is modelled by `none` (any finite score beats it). -/
def step (sc : Nat → Nat → Nat) (acc : Nat × Nat × Option Nat) (x y : Nat) :
    Nat × Nat × Option Nat :=
  match acc.2.2 with
  | none => (x, y, some (sc x y))
  | some bs => if sc x y < bs then (x, y, some (sc x y)) else acc

/-- The inner `for y in range(n)` of the search loop at row offset `x`. -/
def innerLoop (sc : Nat → Nat → Nat) (x : Nat) (acc : Nat × Nat × Option Nat) :
    Nat → Nat × Nat × Option Nat
  | 0 => acc
  | n + 1 => step sc (innerLoop sc x acc n) x n

/-- The outer `for x in range(n)` of the search loop, with `dy` inner
iterations per row offset. -/
def outerLoop (sc : Nat → Nat → Nat) (dy : Nat) (acc : Nat × Nat × Option Nat) :
    Nat → Nat × Nat × Option Nat
  | 0 => acc
  | n + 1 => innerLoop sc n (outerLoop sc dy acc n) dy

/-- The brute-force double loop of `find_best_alignment` over
`0 <= x < dx`, `0 <= y < dy`, starting from
`best_x = 0, best_y = 0, best_score = inf`. -/
def runSearch (probe search : Buf) (dx dy : Nat) : Nat × Nat × Option Nat :=
  outerLoop (score probe search) dy (0, 0, none) dx

/-- The search stage of `find_best_alignment` on the two extracted
sub-buffers: `DX = search.h - probe.h`, `DY = search.w - probe.w`. -/
def searchBest (probe search : Buf) : Nat × Nat × Option Nat :=
  runSearch probe search (search.h - probe.h) (search.w - probe.w)

/-- Loop invariant: `r` is the state of the running best after processing
exactly the offsets satisfying `P`, i.e. `none` iff no offset was
processed, and otherwise the lexicographically first offset attaining the
minimum score over `P`. -/
def IsBestOn (sc : Nat → Nat → Nat) (P : Nat → Nat → Prop) (r : Nat × Nat × Option Nat) : Prop :=
  (r.2.2 = none → ∀ x y, ¬ P x y) ∧
  (∀ bs, r.2.2 = some bs →
    P r.1 r.2.1 ∧ sc r.1 r.2.1 = bs ∧
    (∀ x y, P x y → bs ≤ sc x y) ∧
    (∀ x y, P x y → sc x y = bs → r.1 < x ∨ (r.1 = x ∧ r.2.1 ≤ y)))

lemma isBestOn_congr {sc : Nat → Nat → Nat} {P Q : Nat → Nat → Prop}
    {r : Nat × Nat × Option Nat} (hPQ : ∀ x y, P x y ↔ Q x y)
    (h : IsBestOn sc P r) : IsBestOn sc Q r := by
  obtain ⟨h0, h1⟩ := h
  refine ⟨fun hn x y hq => h0 hn x y ((hPQ x y).mpr hq), fun bs hs => ?_⟩
  obtain ⟨hp, hsc, hmin, hfirst⟩ := h1 bs hs
  exact ⟨(hPQ _ _).mp hp, hsc,
    fun x y hq => hmin x y ((hPQ x y).mpr hq),
    fun x y hq he => hfirst x y ((hPQ x y).mpr hq) he⟩

lemma isBestOn_some (sc : Nat → Nat → Nat) (P : Nat → Nat → Prop) (bx by2 bs : Nat)
    (hp : P bx by2) (hsc : sc bx by2 = bs)
    (hmin : ∀ x y, P x y → bs ≤ sc x y)
    (hfirst : ∀ x y, P x y → sc x y = bs → bx < x ∨ (bx = x ∧ by2 ≤ y)) :
    IsBestOn sc P (bx, by2, some bs) := by
  refine ⟨fun hn => by simp at hn, fun bs2 hs => ?_⟩
  obtain rfl : bs = bs2 := Option.some.inj hs
  exact ⟨hp, hsc, hmin, hfirst⟩

lemma step_isBest {sc : Nat → Nat → Nat} {P : Nat → Nat → Prop}
    {r : Nat × Nat × Option Nat} (x y : Nat)
    (h : IsBestOn sc P r)
    (hP : ∀ a b, P a b → a < x ∨ (a = x ∧ b < y)) :
    IsBestOn sc (fun a b => P a b ∨ (a = x ∧ b = y)) (step sc r x y) := by
  obtain ⟨bx, by2, obs⟩ := r
  obtain ⟨h0, h1⟩ := h
  cases obs with
  | none =>
    have hnone : ∀ a b, ¬ P a b := h0 rfl
    have hstep : step sc (bx, by2, none) x y = (x, y, some (sc x y)) := rfl
    rw [hstep]
    refine isBestOn_some _ _ _ _ _ (Or.inr ⟨rfl, rfl⟩) rfl ?_ ?_
    · rintro a b (hpa | ⟨rfl, rfl⟩)
      · exact absurd hpa (hnone a b)
      · exact le_refl _
    · rintro a b (hpa | ⟨rfl, rfl⟩) _
      · exact absurd hpa (hnone a b)
      · exact Or.inr ⟨rfl, le_refl _⟩
  | some bs =>
    obtain ⟨hp, hsc, hmin, hfirst⟩ := h1 bs rfl
    by_cases hlt : sc x y < bs
    · have hstep : step sc (bx, by2, some bs) x y = (x, y, some (sc x y)) := by
        simp [step, hlt]
      rw [hstep]
      refine isBestOn_some _ _ _ _ _ (Or.inr ⟨rfl, rfl⟩) rfl ?_ ?_
      · rintro a b (hpa | ⟨rfl, rfl⟩)
        · exact le_of_lt (lt_of_lt_of_le hlt (hmin a b hpa))
        · exact le_refl _
      · rintro a b (hpa | ⟨rfl, rfl⟩) he
        · have := hmin a b hpa
          omega
        · exact Or.inr ⟨rfl, le_refl _⟩
    · have hstep : step sc (bx, by2, some bs) x y = (bx, by2, some bs) := by
        simp [step, hlt]
      rw [hstep]
      refine isBestOn_some _ _ _ _ _ (Or.inl hp) hsc ?_ ?_
      · rintro a b (hpa | ⟨rfl, rfl⟩)
        · exact hmin a b hpa
        · omega
      · rintro a b (hpa | ⟨rfl, rfl⟩) he
        · exact hfirst a b hpa he
        · rcases hP bx by2 hp with hx | ⟨hx, hy⟩
          · exact Or.inl hx
          · exact Or.inr ⟨hx, le_of_lt hy⟩

lemma innerLoop_isBest {sc : Nat → Nat → Nat} (x : Nat) :
    ∀ (n : Nat) {P : Nat → Nat → Prop} {r : Nat × Nat × Option Nat},
    IsBestOn sc P r → (∀ a b, P a b → a < x) →
    IsBestOn sc (fun a b => P a b ∨ (a = x ∧ b < n)) (innerLoop sc x r n) := by
  intro n
  induction n with
  | zero =>
    intro P r h hP
    refine isBestOn_congr (fun a b => ?_) h
    exact ⟨fun hpa => Or.inl hpa, fun hpa => hpa.elim id (fun hab => by omega)⟩
  | succ n ih =>
    intro P r h hP
    have h1 := ih h hP
    have h2 := step_isBest x n h1 (by
      rintro a b (hpa | ⟨rfl, hb⟩)
      · exact Or.inl (hP a b hpa)
      · exact Or.inr ⟨rfl, hb⟩)
    refine isBestOn_congr (fun a b => ?_) h2
    constructor
    · rintro ((hpa | ⟨rfl, hb⟩) | ⟨rfl, rfl⟩)
      · exact Or.inl hpa
      · exact Or.inr ⟨rfl, by omega⟩
      · exact Or.inr ⟨rfl, by omega⟩
    · rintro (hpa | ⟨rfl, hb⟩)
      · exact Or.inl (Or.inl hpa)
      · rcases Nat.lt_succ_iff_lt_or_eq.mp hb with hb | rfl
        · exact Or.inl (Or.inr ⟨rfl, hb⟩)
        · exact Or.inr ⟨rfl, rfl⟩

lemma outerLoop_isBest (sc : Nat → Nat → Nat) (dy : Nat) :
    ∀ n : Nat, IsBestOn sc (fun a b => a < n ∧ b < dy) (outerLoop sc dy (0, 0, none) n) := by
  intro n
  induction n with
  | zero =>
    refine ⟨fun _ x y => by omega, fun bs hs => by simp [outerLoop] at hs⟩
  | succ n ih =>
    have h1 := innerLoop_isBest n dy ih (fun a b hab => hab.1)
    refine isBestOn_congr (fun a b => ?_) h1
    constructor
    · rintro (⟨ha, hb⟩ | ⟨rfl, hb⟩)
      · exact ⟨by omega, hb⟩
      · exact ⟨by omega, hb⟩
    · rintro ⟨ha, hb⟩
      rcases Nat.lt_succ_iff_lt_or_eq.mp ha with ha | rfl
      · exact Or.inl ⟨ha, hb⟩
      · exact Or.inr ⟨rfl, hb⟩

/-- The result of the search over a non-empty offset grid is the
lexicographically first offset attaining the minimal score. -/
lemma runSearch_spec (probe search : Buf) (dx dy : Nat) (hdx : 0 < dx) (hdy : 0 < dy) :
    ∃ bx by2 bs, runSearch probe search dx dy = (bx, by2, some bs) ∧
      bx < dx ∧ by2 < dy ∧ score probe search bx by2 = bs ∧
      (∀ x y, x < dx → y < dy → bs ≤ score probe search x y) ∧
      (∀ x y, x < dx → y < dy → score probe search x y = bs →
        bx < x ∨ (bx = x ∧ by2 ≤ y)) := by
  have h := outerLoop_isBest (score probe search) dy dx
  rcases hE : outerLoop (score probe search) dy (0, 0, none) dx with ⟨bx, by2, obs⟩
  rw [hE] at h
  obtain ⟨h0, h1⟩ := h
  cases obs with
  | none => exact absurd ⟨hdx, hdy⟩ (h0 rfl 0 0)
  | some bs =>
    obtain ⟨hp, hsc, hmin, hfirst⟩ := h1 bs rfl
    exact ⟨bx, by2, bs, by simpa [runSearch] using hE, hp.1, hp.2, hsc,
      fun x y hx hy => hmin x y ⟨hx, hy⟩,
      fun x y hx hy he => hfirst x y ⟨hx, hy⟩ he⟩

/-- The two soft failures of `find_best_alignment`: the source logs
"too small to find the best alignment" resp. "No space to find the best
alignment" and returns without a result. -/
inductive AlignError where
  | SearchTooSmall : AlignError
  | NoSearchSpace : AlignError
deriving DecidableEq

/-- A successful `find_best_alignment` outcome: the best offset and score
found by the loop, the annotated composite (`sub_image_other_diff`), and
the `correction_offset` the method returns. -/
structure AlignResult where
  bestX : Nat
  bestY : Nat
  bestScore : Nat
  composite : Buf
  correction : Int × Int

/-- The probe extraction of `find_best_alignment`:
`left[y0:y1, x0:x1].copy()` with `x0 = max(0, rect.left)`,
`y0 = max(0, rect.top)`, `x1 = min(w, rect.left + rect.width)`,
`y1 = min(h, rect.top + rect.height)`. -/
def extractProbe (left : Buf) (rl rt rw rh : Int) : Buf :=
  crop left (max 0 rt) (min (left.h : Int) (rt + rh)) (max 0 rl) (min (left.w : Int) (rl + rw))

/-- The search-window extraction of `find_best_alignment`: the rectangle
doubled in each dimension and re-centred
(`big_kernel_left = rect.left - rect.width // 2`, extent `2 * width`;
likewise vertically), clamped to the right image. -/
def extractSearch (right : Buf) (rl rt rw rh : Int) : Buf :=
  crop right (max 0 (rt - Int.fdiv rh 2)) (min (right.h : Int) (rt - Int.fdiv rh 2 + 2 * rh))
    (max 0 (rl - Int.fdiv rw 2)) (min (right.w : Int) (rl - Int.fdiv rw 2 + 2 * rw))

/-- The composite annotation of `find_best_alignment`, drawn into
`sub_image_other_diff = sub_image_other.copy()`:
first channel 1 of the matched sub-region is replaced by the probe's
channel 1, then a 1-pixel outline in the highlight colour `rgb` is written
over the four border slices of the matched sub-region. -/
def annotate (search probe : Buf) (bx by2 : Nat) (rgb : Nat → Nat) : Buf :=
  { search with data := fun i j k =>
      if bx ≤ i ∧ i < bx + probe.h ∧ by2 ≤ j ∧ j < by2 + probe.w ∧
          (i = bx ∨ i = bx + probe.h - 1 ∨ j = by2 ∨ j = by2 + probe.w - 1) then rgb k
      else if bx ≤ i ∧ i < bx + probe.h ∧ by2 ≤ j ∧ j < by2 + probe.w ∧ k = 1 then
        probe.data (i - bx) (j - by2) 1
      else search.data i j k }

/-- `ImageAlignmentWindow.find_best_alignment` on the cached cropped
arrays `left`/`right` and the kernel rectangle
`(rl, rt, rw, rh) = (left, top, width, height)`.

The highlight colour `rgb` (`LedgerColors.SafetyOrange`, defined in a
module outside `src/`) is passed as a parameter; no claim depends on its
value.  The GUI "no images set" early return is outside the model: the
function is only called with both arrays available. -/
def findBestAlignment (left right : Buf) (rl rt rw rh : Int) (rgb : Nat → Nat) :
    Except AlignError AlignResult :=
  let sub := extractProbe left rl rt rw rh
  let subO := extractSearch right rl rt rw rh
  if sub.h ≤ 3 ∨ sub.w ≤ 3 then Except.error AlignError.SearchTooSmall
  else if subO.h ≤ 3 ∨ subO.w ≤ 3 then Except.error AlignError.SearchTooSmall
  else if ((subO.h : Int) - (sub.h : Int) ≤ 0) ∨ ((subO.w : Int) - (sub.w : Int) ≤ 0) then
    Except.error AlignError.NoSearchSpace
  else
    let r := searchBest sub subO
    Except.ok
      { bestX := r.1
        bestY := r.2.1
        bestScore := r.2.2.getD 0
        composite := annotate subO sub r.1 r.2.1 rgb
        correction := ((r.1 : Int) - (rl - (rl - Int.fdiv rw 2)),
                       (r.2.1 : Int) - (rt - (rt - Int.fdiv rh 2))) }

/-- Heap view of `find_best_alignment`: alongside the result, the final
contents of the caller-visible arrays (the cached cropped arrays the
method reads).  Every in-place write of the source goes to
`sub_image_other_diff`, a `.copy()` of the extracted search window, so
the caller's arrays come back as they went in. -/
def findBestAlignmentTrace (left right : Buf) (rl rt rw rh : Int) (rgb : Nat → Nat) :
    (Buf × Buf) × Except AlignError AlignResult :=
  ((left, right), findBestAlignment left right rl rt rw rh rgb)

/-- `image.min()` for a (flattened, nonempty) numpy array. -/
def minL : List Nat → Nat
  | [] => 0
  | x :: xs => xs.foldl min x

/-- `image.max()` for a (flattened, nonempty) numpy array. -/
def maxL : List Nat → Nat
  | [] => 0
  | x :: xs => xs.foldl max x

/-- The final contents of the argument array of `normalize_to_8bits`
(with `min`/`max` computed from the image): the source mutates it in place
with `image -= min`, then, unless the image is flat, `image *= 255` and
`image //= max - min`, all in uint64 arithmetic. -/
def normalizeFinal (l : List Nat) : List Nat :=
  let mn := minL l
  let mx := maxL l
  let l1 := l.map fun v => wsub v mn
  if mx ≠ mn then (l1.map fun v => v * 255 % U64).map fun v => v / (mx - mn) else l1

/-- The return value of `normalize_to_8bits`: the mutated array clipped to
`[0, 255]` and cast to uint8 (`squeeze` only reshapes). -/
def normalizeOut (l : List Nat) : List Nat :=
  (normalizeFinal l).map fun v => min v 255

/-- The output claim C6 describes: each sample linearly rescaled to
`[0, 255]` and clamped.  Defined from the specification's words, for
comparison with `normalizeOut` (which is defined from the source). -/
def specRescale (l : List Nat) : List Nat :=
  l.map fun v => min ((v - minL l) * 255 / (maxL l - minL l)) 255

/-- `clip(min=0, max=255)` followed by `astype(numpy.uint8)` on a float
value (model: exact rational; the cast truncates toward zero). -/
def clipCast (q : ℚ) : Nat :=
  if q ≤ 0 then 0 else if 255 ≤ q then 255 else ⌊q⌋.toNat

/-- One pixel of the non-identity branch of `apply_balances`, in float32
arithmetic modelled by exact rationals: subtract `black * 255`, divide by
`white - black`, clip, cast to uint8.  When `white = black` the division
is IEEE-754 division by zero: a positive numerator gives `+inf` (clipped
to 255), a negative one `-inf` (clipped to 0), and `0/0` gives NaN, which
numpy's uint8 cast turns into 0. -/
def balPixel (black white : ℚ) (v : Nat) : Nat :=
  if white - black = 0 then (if 0 < (v : ℚ) - black * 255 then 255 else 0)
  else clipCast (((v : ℚ) - black * 255) / (white - black))

/-- `apply_balances`: the image is returned untouched for the identity
balance `(0.0, 1.0)`, and otherwise mapped through `balPixel`. -/
def applyBalances (img : List Nat) (b : ℚ × ℚ) : List Nat :=
  if b.1 = 0 ∧ b.2 = 1 then img else img.map (balPixel b.1 b.2)

/-- `construct_diff_ndarray` on two equal-shape 2D uint64 arrays `img`
(`image`) and `ref` (`reference`): channel 0 is
`(reference - image).astype(int64).clip(min=0).astype(uint64)`, channel 1
the same with the operands swapped, channel 2 zero
(`stack([neg, pos, zer], axis=2)`). -/
def constructDiff (img ref : Nat → Nat → Nat) : Nat → Nat → Nat → Nat :=
  fun i j k =>
    if k = 0 then posPart (ref i j) (img i j)
    else if k = 1 then posPart (img i j) (ref i j) else 0

/-- The cardinal directions `set_images` assigns. -/
inductive Dir where
  | right : Dir
  | left : Dir
  | bottom : Dir
  | top : Dir
deriving DecidableEq

/-- Direction from the nominal offset, as in `set_images`: positive x
gives right, negative x left, else positive y bottom, else top. -/
def dirOfOffset (off : Int × Int) : Dir :=
  if 0 < off.1 then Dir.right
  else if off.1 < 0 then Dir.left
  else if 0 < off.2 then Dir.bottom
  else Dir.top

/-- The cropping origin of `set_images`:
`offset - image_left.pos() + image_right.pos()`, truncated to int. -/
def croppingXY (off pL pR : Int × Int) : Int × Int :=
  (off.1 - pL.1 + pR.1, off.2 - pL.2 + pR.2)

/-- The elementwise displayed diff of `set_images`:
`abs(a.astype(int64) - b.astype(int64)).astype(uint64)`. -/
def absDiffBuf (a b : Buf) : Buf :=
  { h := a.h, w := a.w, c := a.c,
    data := fun i j k => absDiffPix (a.data i j k) (b.data i j k) }

/-- `stacked = stack([a[:,:,0], b[:,:,0], a[:,:,0]], axis=2)`: the
green-on-magenta overlay `set_images` displays. -/
def stackSum (a b : Buf) : Buf :=
  { h := a.h, w := a.w, c := 3,
    data := fun i j k => if k = 1 then b.data i j 0 else a.data i j 0 }

/-- `cropped_diff.sum()`: a uint64 total, wrapping mod `2 ^ 64`. -/
def bufSum (b : Buf) : Nat :=
  (sumN b.h fun i => sumN b.w fun j => sumN b.c fun k => b.data i j k) % U64

/-- The alignment-session state of `ImageAlignmentWindow` that `set_images`
touches: the two tile references (modelled by their ids), the direction,
the alignment score (`none` is the `numpy.inf` sentinel), the four
displayed composites (modelled by the arrays the pixmaps are built from)
and the cached cropped arrays. -/
structure SessionState where
  image : Option Nat
  imageOther : Option Nat
  direction : Option Dir
  alignmentScore : Option Nat
  pixL : Option Buf
  pixR : Option Buf
  pixD : Option Buf
  pixS : Option Buf
  croppedLeft : Option Buf
  croppedRight : Option Buf

/-- `ImageAlignmentWindow.set_images`.  The source stores the image
references and the direction first, computes the cropping rectangle from
the nominal offset and the two tile positions, and returns early (after
logging) when the crop has non-positive width or height; otherwise it
crops both display buffers, caches the crops, and stores the displayed
composites and the alignment score. -/
def setImages (s : SessionState) (lid rid : Nat) (lbuf rbuf : Buf)
    (off pL pR : Int × Int) : SessionState :=
  let s1 := { s with image := some lid, imageOther := some rid,
                     direction := some (dirOfOffset off) }
  let x := (croppingXY off pL pR).1
  let y := (croppingXY off pL pR).2
  if ((lbuf.w : Int) - |x| ≤ 0) ∨ ((lbuf.h : Int) - |y| ≤ 0) then s1
  else
    let croppedL := crop lbuf (if 0 ≤ y then y else 0) (if 0 ≤ y then (lbuf.h : Int) else lbuf.h + y)
      (if 0 ≤ x then x else 0) (if 0 ≤ x then (lbuf.w : Int) else lbuf.w + x)
    let croppedR := crop rbuf (if 0 ≤ y then 0 else -y) (if 0 ≤ y then (lbuf.h : Int) - y else (lbuf.h : Int))
      (if 0 ≤ x then 0 else -x) (if 0 ≤ x then (lbuf.w : Int) - x else (lbuf.w : Int))
    let diffB := absDiffBuf croppedL croppedR
    { s1 with
      pixL := some croppedL
      pixR := some croppedR
      pixD := some diffB
      pixS := some (stackSum croppedL croppedR)
      croppedLeft := some croppedL
      croppedRight := some croppedR
      alignmentScore := some (bufSum diffB) }

/-- A fresh session (window just created: no tiles, score `numpy.inf`,
nothing displayed, no cached crops). -/
def emptySession : SessionState :=
  { image := none, imageOther := none, direction := none, alignmentScore := none,
    pixL := none, pixR := none, pixD := none, pixS := none,
    croppedLeft := none, croppedRight := none }

lemma U64_pos : 0 < U64 := by norm_num [U64]

lemma wsub_self (a : Nat) : wsub a a = 0 := by
  have h1 : a % U64 < U64 := Nat.mod_lt _ U64_pos
  unfold wsub
  have h2 : a % U64 + (U64 - a % U64) = U64 := by omega
  rw [h2, Nat.mod_self]

lemma wsub_eq_sub {a b : Nat} (hba : b ≤ a) (ha : a < U64) : wsub a b = a - b := by
  unfold wsub
  rw [Nat.mod_eq_of_lt ha, Nat.mod_eq_of_lt (lt_of_le_of_lt hba ha)]
  have h2 : a + (U64 - b) = (a - b) + U64 := by omega
  rw [h2, Nat.add_mod_right, Nat.mod_eq_of_lt (by omega)]

lemma sumN_eq_zero {f : Nat → Nat} : ∀ n, (∀ i, i < n → f i = 0) → sumN n f = 0 := by
  intro n
  induction n with
  | zero => intro _; rfl
  | succ n ih =>
    intro h
    have h1 : sumN n f = 0 := ih fun i hi => h i (by omega)
    have h2 : f n = 0 := h n (by omega)
    simp [sumN, h1, h2]

lemma score_eq_zero_of_copy (probe search : Buf) (dx0 dy0 : Nat)
    (hcopy : ∀ i, i < probe.h → ∀ j, j < probe.w → ∀ k, k < probe.c →
      probe.data i j k = search.data (dx0 + i) (dy0 + j) k) :
    score probe search dx0 dy0 = 0 := by
  unfold score
  have h : (sumN probe.h fun i => sumN probe.w fun j => sumN probe.c fun k =>
      wsub (probe.data i j k) (search.data (dx0 + i) (dy0 + j) k)) = 0 := by
    refine sumN_eq_zero _ fun i hi => ?_
    refine sumN_eq_zero _ fun j hj => ?_
    refine sumN_eq_zero _ fun k hk => ?_
    rw [hcopy i hi j hj k hk, wsub_self]
  rw [h]
  exact Nat.zero_mod _

end NebulaStudio

namespace NebulaStudio

/-- Concrete buffers for claim C1: an all-zero 4×4×3 probe and an all-one
5×5×3 search window, giving the single offset `(0, 0)`. -/
def probeC1 : Buf := ⟨4, 4, 3, fun _ _ _ => 0⟩

/-- See `probeC1`. -/
def searchC1 : Buf := ⟨5, 5, 3, fun _ _ _ => 1⟩

/-- C1, counterexample: at the only admissible offset `(0, 0)` of
`probeC1`/`searchC1`, the source's best score is the wrapped uint64 value
`2 ^ 64 - 48` (all three channels enter the sum and `0 - 1` wraps), while
the claimed single-channel sum of absolute differences is `16`; so the
returned best score is not the minimum of the claimed score. -/
theorem c1_counterexample :
    searchBest probeC1 searchC1 = (0, 0, some (U64 - 48)) ∧
    specScoreC1 probeC1 searchC1 0 0 = 16 ∧ U64 - 48 ≠ 16 :=
  ⟨by decide, by decide, by decide⟩

/-- C1 (amended): for every successful search (probe strictly smaller than
the search window in both dimensions), the returned best score is the
minimum over all offsets `0 ≤ x < DX`, `0 ≤ y < DY` of the score the
source computes: the sum over **all channels** of the uint64-wrapped
difference `probe - sub_region` (no reduction to a single scoring channel
takes place, and `numpy.abs` is the identity on the unsigned dtype). -/
theorem c1_search_score_minimum (probe search : Buf)
    (hdx : probe.h < search.h) (hdy : probe.w < search.w) :
    ∃ bx by2 bs, searchBest probe search = (bx, by2, some bs) ∧
      bx < search.h - probe.h ∧ by2 < search.w - probe.w ∧
      score probe search bx by2 = bs ∧
      ∀ x y, x < search.h - probe.h → y < search.w - probe.w →
        bs ≤ score probe search x y := by
  obtain ⟨bx, by2, bs, hE, h1, h2, h3, h4, _⟩ :=
    runSearch_spec probe search (search.h - probe.h) (search.w - probe.w)
      (by omega) (by omega)
  exact ⟨bx, by2, bs, hE, h1, h2, h3, h4⟩

/-- C1, witness: the amended theorem applied to `probeC1`/`searchC1`. -/
theorem c1_witness :
    ∃ bx by2 bs, searchBest probeC1 searchC1 = (bx, by2, some bs) ∧
      bx < searchC1.h - probeC1.h ∧ by2 < searchC1.w - probeC1.w ∧
      score probeC1 searchC1 bx by2 = bs ∧
      ∀ x y, x < searchC1.h - probeC1.h → y < searchC1.w - probeC1.w →
        bs ≤ score probeC1 searchC1 x y :=
  c1_search_score_minimum probeC1 searchC1 (by decide) (by decide)

/-- C2: on every successful search the returned offset attains the best
score, and among all offsets attaining it the returned one is the first in
iteration order (smallest x, then smallest y): the comparison is strict
less-than, so an equal score never overwrites the current best. -/
theorem c2_tie_break_first (probe search : Buf)
    (hdx : probe.h < search.h) (hdy : probe.w < search.w) :
    ∃ bx by2 bs, searchBest probe search = (bx, by2, some bs) ∧
      score probe search bx by2 = bs ∧
      ∀ x y, x < search.h - probe.h → y < search.w - probe.w →
        score probe search x y = bs → bx < x ∨ (bx = x ∧ by2 ≤ y) := by
  obtain ⟨bx, by2, bs, hE, _, _, h3, _, h5⟩ :=
    runSearch_spec probe search (search.h - probe.h) (search.w - probe.w)
      (by omega) (by omega)
  exact ⟨bx, by2, bs, hE, h3, h5⟩

/-- Concrete buffers for claim C2: an all-zero probe in an all-zero 5×6
search window, so both admissible offsets `(0, 0)` and `(0, 1)` tie with
score zero. -/
def probeC2 : Buf := ⟨4, 4, 3, fun _ _ _ => 0⟩

/-- See `probeC2`. -/
def searchC2 : Buf := ⟨5, 6, 3, fun _ _ _ => 0⟩

/-- C2, witness: the tie-break theorem applied to `probeC2`/`searchC2`. -/
theorem c2_witness :
    ∃ bx by2 bs, searchBest probeC2 searchC2 = (bx, by2, some bs) ∧
      score probeC2 searchC2 bx by2 = bs ∧
      ∀ x y, x < searchC2.h - probeC2.h → y < searchC2.w - probeC2.w →
        score probeC2 searchC2 x y = bs → bx < x ∨ (bx = x ∧ by2 ≤ y) :=
  c2_tie_break_first probeC2 searchC2 (by decide) (by decide)

/-- C4: if the probe is an exact copy of the search window's sub-region at
offset `(dx0, dy0)` and no earlier offset in iteration order scores zero,
the search returns exactly `(dx0, dy0)` with best score `0`. -/
theorem c4_exact_subregion (probe search : Buf) (dx0 dy0 : Nat)
    (hx : dx0 < search.h - probe.h) (hy : dy0 < search.w - probe.w)
    (hcopy : ∀ i, i < probe.h → ∀ j, j < probe.w → ∀ k, k < probe.c →
      probe.data i j k = search.data (dx0 + i) (dy0 + j) k)
    (hfirst : ∀ x, x < search.h - probe.h → ∀ y, y < search.w - probe.w →
      (x < dx0 ∨ (x = dx0 ∧ y < dy0)) → score probe search x y ≠ 0) :
    searchBest probe search = (dx0, dy0, some 0) := by
  have hz : score probe search dx0 dy0 = 0 := score_eq_zero_of_copy probe search dx0 dy0 hcopy
  obtain ⟨bx, by2, bs, hE, h1, h2, h3, h4, h5⟩ :=
    runSearch_spec probe search (search.h - probe.h) (search.w - probe.w)
      (by omega) (by omega)
  have hbs : bs = 0 := by
    have := h4 dx0 dy0 hx hy
    omega
  subst hbs
  have hlex : bx < dx0 ∨ (bx = dx0 ∧ by2 ≤ dy0) := h5 dx0 dy0 hx hy hz
  have hbx : bx = dx0 ∧ by2 = dy0 := by
    rcases hlex with hlt | ⟨rfl, hle⟩
    · exact absurd h3 (hfirst bx h1 by2 h2 (Or.inl hlt))
    · rcases Nat.lt_or_ge by2 dy0 with hlt2 | hge
      · exact absurd h3 (hfirst bx h1 by2 h2 (Or.inr ⟨rfl, hlt2⟩))
      · exact ⟨rfl, by omega⟩
  rw [hbx.1, hbx.2] at hE
  exact hE

/-- A 2×10×3 constant buffer: used as both images for C3's counterexample,
where the extracted buffers are 2 pixels high (too small) *and* leave no
search space (`DX = 0`). -/
def bufC3 : Buf := ⟨2, 10, 3, fun _ _ _ => 5⟩

/-- A 10×10×3 constant buffer for C3's witness: large enough in both
dimensions, but with a kernel rectangle covering everything, so the
doubled search window clamps back to the same 10×10 extent and `DX = 0`. -/
def bufC3b : Buf := ⟨10, 10, 3, fun _ _ _ => 5⟩

/-- An all-zero highlight colour, standing in for the fixed
`LedgerColors.SafetyOrange` at calls whose claims do not involve it. -/
def rgb0 : Nat → Nat := fun _ => 0

/-- C3, counterexample: with `bufC3` as both images and the kernel
rectangle `(0, 0, 10, 2)`, both extracted buffers are 2×10 and
`DX = 2 - 2 = 0`; the claim's reading makes this a `NoSearchSpace`
failure, but the source checks the sizes first and fails with
`SearchTooSmall`. -/
theorem c3_counterexample :
    findBestAlignment bufC3 bufC3 0 0 10 2 rgb0 = Except.error AlignError.SearchTooSmall ∧
    findBestAlignment bufC3 bufC3 0 0 10 2 rgb0 ≠ Except.error AlignError.NoSearchSpace ∧
    ((extractSearch bufC3 0 0 10 2).h : Int) - ((extractProbe bufC3 0 0 10 2).h : Int) ≤ 0 := by
  have h1 : findBestAlignment bufC3 bufC3 0 0 10 2 rgb0 = Except.error AlignError.SearchTooSmall := rfl
  refine ⟨h1, ?_, by decide⟩
  rw [h1]
  intro h
  exact AlignError.noConfusion (Except.error.inj h)

/-- C3 (amended): `find_best_alignment` fails with `SearchTooSmall`
exactly when either extracted buffer has height ≤ 3 or width ≤ 3, and
fails with `NoSearchSpace` exactly when neither buffer is too small (the
size check runs first) and `DX = search.h - probe.h ≤ 0` or
`DY = search.w - probe.w ≤ 0`; in both cases it produces no alignment
result. -/
theorem c3_failure_conditions (left right : Buf) (rl rt rw rh : Int) (rgb : Nat → Nat) :
    (findBestAlignment left right rl rt rw rh rgb = Except.error AlignError.SearchTooSmall ↔
      ((extractProbe left rl rt rw rh).h ≤ 3 ∨ (extractProbe left rl rt rw rh).w ≤ 3 ∨
       (extractSearch right rl rt rw rh).h ≤ 3 ∨ (extractSearch right rl rt rw rh).w ≤ 3)) ∧
    (findBestAlignment left right rl rt rw rh rgb = Except.error AlignError.NoSearchSpace ↔
      (¬((extractProbe left rl rt rw rh).h ≤ 3 ∨ (extractProbe left rl rt rw rh).w ≤ 3 ∨
         (extractSearch right rl rt rw rh).h ≤ 3 ∨ (extractSearch right rl rt rw rh).w ≤ 3) ∧
       (((extractSearch right rl rt rw rh).h : Int) - ((extractProbe left rl rt rw rh).h : Int) ≤ 0 ∨
        ((extractSearch right rl rt rw rh).w : Int) - ((extractProbe left rl rt rw rh).w : Int) ≤ 0))) := by
  simp only [findBestAlignment]
  split_ifs with h1 h2 h3
  · refine ⟨⟨fun _ => by tauto, fun _ => rfl⟩,
      ⟨fun h => AlignError.noConfusion (Except.error.inj h), fun h => absurd (by tauto) h.1⟩⟩
  · refine ⟨⟨fun _ => by tauto, fun _ => rfl⟩,
      ⟨fun h => AlignError.noConfusion (Except.error.inj h), fun h => absurd (by tauto) h.1⟩⟩
  · refine ⟨⟨fun h => AlignError.noConfusion (Except.error.inj h), fun hr => absurd hr (by tauto)⟩,
      ⟨fun _ => ⟨by tauto, h3⟩, fun _ => rfl⟩⟩
  · refine ⟨⟨fun h => h.elim, fun hr => absurd hr (by tauto)⟩,
      ⟨fun h => h.elim, fun hr => absurd hr.2 h3⟩⟩

/-- C3, witness: a `NoSearchSpace` failure obtained through the amended
biconditional: both extracted buffers are 10×10 (not too small) and there
is no search space (`DX = DY = 0`). -/
theorem c3_witness :
    findBestAlignment bufC3b bufC3b 0 0 10 10 rgb0 = Except.error AlignError.NoSearchSpace :=
  (c3_failure_conditions bufC3b bufC3b 0 0 10 10 rgb0).2.mpr ⟨by decide, by decide⟩

/-- The 5×5 probe of constant value 10 from claim C4's example. -/
def probeC4 : Buf := ⟨5, 5, 3, fun _ _ _ => 10⟩

/-- The 20×20 search buffer from claim C4's example: value 10 on the 5×5
block at rows 3–7, columns 4–8, zero elsewhere. -/
def searchC4 : Buf :=
  ⟨20, 20, 3, fun i j _ => if 3 ≤ i ∧ i < 8 ∧ 4 ≤ j ∧ j < 9 then 10 else 0⟩

/-- C4, witness: the claim's example scenario, via `c4_exact_subregion`:
the 5×5 probe embedded at rows 3–7, columns 4–8 of the 20×20 search buffer
is found at `best_dx = 3`, `best_dy = 4` with `best_score = 0`. -/
theorem c4_witness : searchBest probeC4 searchC4 = (3, 4, some 0) :=
  c4_exact_subregion probeC4 searchC4 3 4 (by decide) (by decide) (by decide) (by decide)

/-- C5: on every successful call, the returned `correction_offset` is the
best offset minus half the kernel rectangle's size
(`best_x - width // 2`, `best_y - height // 2`), the `//` being Python's
floor division; the re-centring term `rect.left - big_kernel_left` the
source subtracts is computed before any clamping, so this holds for every
successful call. -/
theorem c5_correction_offset (left right : Buf) (rl rt rw rh : Int) (rgb : Nat → Nat)
    (res : AlignResult)
    (hok : findBestAlignment left right rl rt rw rh rgb = Except.ok res) :
    res.correction = ((res.bestX : Int) - Int.fdiv rw 2, (res.bestY : Int) - Int.fdiv rh 2) := by
  simp only [findBestAlignment] at hok
  split_ifs at hok with h1 h2 h3
  obtain rfl := (Except.ok.inj hok).symm
  refine Prod.ext ?_ ?_ <;> · simp only
                              omega

/-- A 6×6×3 constant buffer: with kernel rectangle `(0, 0, 4, 4)` the
probe is 4×4, the clamped search window 6×6, and the search succeeds. -/
def bufC5 : Buf := ⟨6, 6, 3, fun _ _ _ => 7⟩

/-- C5, witness: the correction-offset theorem at `bufC5` with kernel
rectangle `(0, 0, 4, 4)`. -/
theorem c5_witness :
    ∃ res, findBestAlignment bufC5 bufC5 0 0 4 4 rgb0 = Except.ok res ∧
      res.correction = ((res.bestX : Int) - Int.fdiv 4 2, (res.bestY : Int) - Int.fdiv 4 2) :=
  ⟨_, rfl, c5_correction_offset bufC5 bufC5 0 0 4 4 rgb0 _ rfl⟩

/-- C10, counterexample: `normalize_to_8bits` mutates its input buffer in
place: after the call on the two-sample buffer `[0, 2]` the caller's array
holds the rescaled values `[0, 255]`, not its original samples. -/
theorem c10_counterexample : normalizeFinal [0, 2] ≠ [0, 2] := by decide

/-- C10 (amended): `find_best_alignment` leaves the cached cropped arrays
and both input images unchanged — the composite annotation is drawn only
into a `.copy()` of the extracted search window, so the composite agrees
with the extracted search window outside the matched probe rectangle;
`normalize_to_8bits`, by contrast, mutates its input array in place (its
caller `make_rgb_pixmap` passes a fresh `astype` copy). -/
theorem c10_read_only_buffers (left right : Buf) (rl rt rw rh : Int) (rgb : Nat → Nat)
    (res : AlignResult)
    (hok : findBestAlignment left right rl rt rw rh rgb = Except.ok res) :
    (findBestAlignmentTrace left right rl rt rw rh rgb).1 = (left, right) ∧
    res.composite.h = (extractSearch right rl rt rw rh).h ∧
    res.composite.w = (extractSearch right rl rt rw rh).w ∧
    ∀ i j k, (i < res.bestX ∨ res.bestX + (extractProbe left rl rt rw rh).h ≤ i ∨
              j < res.bestY ∨ res.bestY + (extractProbe left rl rt rw rh).w ≤ j) →
      res.composite.data i j k = (extractSearch right rl rt rw rh).data i j k := by
  refine ⟨rfl, ?_⟩
  simp only [findBestAlignment] at hok
  split_ifs at hok with h1 h2 h3
  obtain rfl := (Except.ok.inj hok).symm
  dsimp only
  refine ⟨rfl, rfl, ?_⟩
  intro i j k hout
  simp only [annotate]
  rw [if_neg (by omega), if_neg (by omega)]

/-- C10, witness: a successful call on `bufC5`; at the pixel `(5, 5)`,
outside the matched 4×4 rectangle at `(0, 0)`, the composite still holds
the extracted search window's sample. -/
theorem c10_witness :
    ∃ res, findBestAlignment bufC5 bufC5 0 0 4 4 rgb0 = Except.ok res ∧
      res.composite.data 5 5 1 = (extractSearch bufC5 0 0 4 4).data 5 5 1 :=
  ⟨_, rfl, (c10_read_only_buffers bufC5 bufC5 0 0 4 4 rgb0 _ rfl).2.2.2 5 5 1
    (by right; left; decide)⟩

lemma foldl_min_le_init : ∀ (xs : List Nat) (a : Nat), xs.foldl min a ≤ a := by
  intro xs
  induction xs with
  | nil => intro a; exact le_refl a
  | cons x xs ih => intro a; exact le_trans (ih (min a x)) (min_le_left a x)

lemma foldl_min_le_mem : ∀ (xs : List Nat) (a v : Nat), v ∈ xs → xs.foldl min a ≤ v := by
  intro xs
  induction xs with
  | nil => intro a v hv; cases hv
  | cons x xs ih =>
    intro a v hv
    rcases List.mem_cons.mp hv with rfl | hv
    · exact le_trans (foldl_min_le_init xs (min a v)) (min_le_right a v)
    · exact ih (min a x) v hv

lemma init_le_foldl_max : ∀ (xs : List Nat) (a : Nat), a ≤ xs.foldl max a := by
  intro xs
  induction xs with
  | nil => intro a; exact le_refl a
  | cons x xs ih => intro a; exact le_trans (le_max_left a x) (ih (max a x))

lemma mem_le_foldl_max : ∀ (xs : List Nat) (a v : Nat), v ∈ xs → v ≤ xs.foldl max a := by
  intro xs
  induction xs with
  | nil => intro a v hv; cases hv
  | cons x xs ih =>
    intro a v hv
    rcases List.mem_cons.mp hv with rfl | hv
    · exact le_trans (le_max_right a v) (init_le_foldl_max xs (max a v))
    · exact ih (max a x) v hv

lemma minL_le {l : List Nat} {v : Nat} (hv : v ∈ l) : minL l ≤ v := by
  cases l with
  | nil => cases hv
  | cons x xs =>
    rcases List.mem_cons.mp hv with rfl | hv
    · exact foldl_min_le_init xs v
    · exact foldl_min_le_mem xs x v hv

lemma le_maxL {l : List Nat} {v : Nat} (hv : v ∈ l) : v ≤ maxL l := by
  cases l with
  | nil => cases hv
  | cons x xs =>
    rcases List.mem_cons.mp hv with rfl | hv
    · exact init_le_foldl_max xs v
    · exact mem_le_foldl_max xs x v hv

/-- C6, counterexample: on the uint64 buffer `[0, 2 ^ 64 - 1]` the in-place
`image *= 255` wraps, so the second output sample is `0` where a linear
rescale to `[0, 255]` would give `255`: the output is not the clamped
linear rescale of the input. -/
theorem c6_counterexample :
    maxL [0, U64 - 1] ≠ minL [0, U64 - 1] ∧
    normalizeOut [0, U64 - 1] ≠ specRescale [0, U64 - 1] :=
  ⟨by decide, by decide⟩

/-- C6 (amended): for every nonempty uint64 buffer, `normalize_to_8bits`
(with min/max computed from the buffer) raises no division error and
returns samples in `[0, 255]`; a flat buffer gives an all-zero output; and
whenever `(max - min) * 255` does not overflow uint64 the output is the
input linearly rescaled to `[0, 255]` and clamped. -/
theorem c6_normalize (l : List Nat) (hne : l ≠ []) (hb : ∀ v ∈ l, v < U64) :
    (∀ v ∈ normalizeOut l, v ≤ 255) ∧
    (maxL l = minL l → ∀ v ∈ normalizeOut l, v = 0) ∧
    (maxL l ≠ minL l → (maxL l - minL l) * 255 < U64 →
      normalizeOut l = l.map fun v => min ((v - minL l) * 255 / (maxL l - minL l)) 255) := by
  refine ⟨?_, ?_, ?_⟩
  · intro v hv
    unfold normalizeOut at hv
    obtain ⟨u, _, rfl⟩ := List.mem_map.mp hv
    omega
  · intro hflat v hv
    unfold normalizeOut normalizeFinal at hv
    rw [if_neg (by omega)] at hv
    obtain ⟨u, hu1, rfl⟩ := List.mem_map.mp hv
    obtain ⟨u2, hu2, rfl⟩ := List.mem_map.mp hu1
    have h1 : minL l ≤ u2 := minL_le hu2
    have h2 : u2 ≤ maxL l := le_maxL hu2
    have h3 : u2 = minL l := by omega
    rw [h3, wsub_self]
    rfl
  · intro hflat hov
    unfold normalizeOut normalizeFinal
    rw [if_pos hflat]
    rw [List.map_map, List.map_map, List.map_map]
    refine List.map_congr_left fun v hv => ?_
    have h1 : minL l ≤ v := minL_le hv
    have h2 : v ≤ maxL l := le_maxL hv
    have h3 : v < U64 := hb v hv
    simp only [Function.comp]
    rw [wsub_eq_sub h1 h3]
    have h4 : (v - minL l) * 255 < U64 := by
      have : v - minL l ≤ maxL l - minL l := by omega
      calc (v - minL l) * 255 ≤ (maxL l - minL l) * 255 := by
            exact Nat.mul_le_mul_right 255 this
        _ < U64 := hov
    rw [Nat.mod_eq_of_lt h4]

/-- C6, witness: the amended theorem at the buffer `[0, 2]`. -/
theorem c6_witness :
    (∀ v ∈ normalizeOut [0, 2], v ≤ 255) ∧
    (maxL [0, 2] = minL [0, 2] → ∀ v ∈ normalizeOut [0, 2], v = 0) ∧
    (maxL [0, 2] ≠ minL [0, 2] → (maxL [0, 2] - minL [0, 2]) * 255 < U64 →
      normalizeOut [0, 2] = [0, 2].map fun v => min ((v - minL [0, 2]) * 255 / (maxL [0, 2] - minL [0, 2])) 255) :=
  c6_normalize [0, 2] (by decide) (by decide)

/-- C7, counterexample: with the degenerate balance `(0.5, 0.5)` on the
constant-255 input, `(255 - 0.5 * 255) / 0.0` is IEEE `+inf`, which is
clamped to 255 — not to 0 as the claim states. -/
theorem c7_counterexample :
    applyBalances [255] ((1 : ℚ)/2, (1 : ℚ)/2) = [255] ∧ (255 : Nat) ≠ 0 := by
  constructor
  · norm_num [applyBalances, balPixel]
  · decide

/-- C7 (amended): `apply_balances` with the identity pair `(0.0, 1.0)`
returns the input unchanged; with `(0.5, 1.0)` on a constant-255 input it
returns constant 255; and with a degenerate balance `white = black` it
raises no division error but clamps each pixel to 255 when it lies above
`black * 255` and to 0 otherwise. -/
theorem c7_apply_balances :
    (∀ img : List Nat, applyBalances img (0, 1) = img) ∧
    (∀ n : Nat, applyBalances (List.replicate n 255) ((1 : ℚ)/2, 1) = List.replicate n 255) ∧
    (∀ (img : List Nat) (black : ℚ),
      applyBalances img (black, black) =
        img.map fun v : Nat => if black * 255 < (v : ℚ) then (255 : Nat) else 0) := by
  refine ⟨?_, ?_, ?_⟩
  · intro img
    unfold applyBalances
    rw [if_pos ⟨rfl, rfl⟩]
  · intro n
    unfold applyBalances
    rw [if_neg (by norm_num)]
    rw [List.map_replicate]
    have h : balPixel ((1 : ℚ)/2) 1 255 = 255 := by
      unfold balPixel clipCast
      rw [if_neg (by norm_num)]
      norm_num
    rw [h]
  · intro img black
    unfold applyBalances
    rw [if_neg (by rintro ⟨rfl, h⟩; norm_num at h)]
    refine List.map_congr_left fun v _ => ?_
    unfold balPixel
    rw [if_pos (sub_self black)]
    rcases lt_or_le (black * 255) ((v : ℚ)) with h | h
    · rw [if_pos h, if_pos (by linarith)]
    · rw [if_neg (by linarith), if_neg (by linarith)]

lemma toNat_max_zero (z : Int) : (max z 0).toNat = z.toNat := by
  rcases le_total z 0 with h | h
  · rw [max_eq_right h]
    simp [Int.toNat_of_nonpos h]
  · rw [max_eq_left h]

lemma posPart_eq {a b : Nat} (ha : a < TWO63) (hb : b < TWO63) : posPart a b = a - b := by
  have haU : a < U64 := by
    have : TWO63 < U64 := by norm_num [TWO63, U64]
    omega
  have hbU : b < U64 := by
    have : TWO63 < U64 := by norm_num [TWO63, U64]
    omega
  unfold posPart
  rw [toNat_max_zero]
  rcases le_or_lt b a with hba | hab
  · rw [wsub_eq_sub hba haU]
    have h1 : (a - b) % U64 = a - b := Nat.mod_eq_of_lt (by omega)
    unfold i64OfU64
    rw [h1, if_pos (by omega)]
    exact Int.toNat_natCast (a - b)
  · have hw : wsub a b = U64 - (b - a) := by
      unfold wsub
      rw [Nat.mod_eq_of_lt haU, Nat.mod_eq_of_lt hbU]
      have h2 : a + (U64 - b) = (U64 - (b - a)) := by omega
      rw [h2, Nat.mod_eq_of_lt (by omega)]
    rw [hw]
    unfold i64OfU64
    have h3 : (U64 - (b - a)) % U64 = U64 - (b - a) := Nat.mod_eq_of_lt (by omega)
    rw [h3, if_neg (by
      have hU : TWO63 ≤ U64 - (b - a) := by
        have h4 : b - a < TWO63 := by omega
        have h5 : U64 = TWO63 + TWO63 := by norm_num [TWO63, U64]
        omega
      omega)]
    have h6 : ((U64 - (b - a) : Nat) : Int) - ((U64 : Nat) : Int) = -(((b - a : Nat) : Int)) := by
      have h7 : b - a ≤ U64 := by omega
      omega
    rw [h6]
    have h8 : a - b = 0 := by omega
    rw [h8]
    simp [Int.toNat_of_nonpos]

/-- C8, counterexample: for samples `image = 2 ^ 63`, `reference = 0`, both
differences reinterpret to the minimal int64 and are clipped away, so
channel 0 + channel 1 is `0` while `|image - reference| = 2 ^ 63 ≠ 0`. -/
theorem c8_counterexample :
    constructDiff (fun _ _ => TWO63) (fun _ _ => 0) 0 0 0 +
      constructDiff (fun _ _ => TWO63) (fun _ _ => 0) 0 0 1 = 0 ∧
    Nat.dist TWO63 0 = TWO63 ∧ TWO63 ≠ 0 :=
  ⟨by decide, by decide, by decide⟩

/-- C8 (amended): at every pixel whose two samples are below `2 ^ 63` (the
difference fits int64), `construct_diff_ndarray` puts
`max(reference - image, 0)` in channel 0, `max(image - reference, 0)` in
channel 1 and zero in channel 2; at least one of channels 0 and 1 is zero
and their sum is `|image - reference|`. -/
theorem c8_diff_channels (img ref : Nat → Nat → Nat) (i j : Nat)
    (ha : img i j < TWO63) (hb : ref i j < TWO63) :
    constructDiff img ref i j 0 = ref i j - img i j ∧
    constructDiff img ref i j 1 = img i j - ref i j ∧
    constructDiff img ref i j 2 = 0 ∧
    (constructDiff img ref i j 0 = 0 ∨ constructDiff img ref i j 1 = 0) ∧
    constructDiff img ref i j 0 + constructDiff img ref i j 1 = Nat.dist (img i j) (ref i j) := by
  have h0 : constructDiff img ref i j 0 = ref i j - img i j := by
    unfold constructDiff
    rw [if_pos rfl]
    exact posPart_eq hb ha
  have h1 : constructDiff img ref i j 1 = img i j - ref i j := by
    unfold constructDiff
    rw [if_neg (by omega), if_pos rfl]
    exact posPart_eq ha hb
  refine ⟨h0, h1, by unfold constructDiff; rw [if_neg (by omega), if_neg (by omega)], ?_, ?_⟩
  · rw [h0, h1]
    omega
  · rw [h0, h1, Nat.dist]
    omega

/-- C8, witness: the amended theorem at the constant samples 5 and 3. -/
theorem c8_witness :
    constructDiff (fun _ _ => 5) (fun _ _ => 3) 0 0 0 = 3 - 5 ∧
    constructDiff (fun _ _ => 5) (fun _ _ => 3) 0 0 1 = 5 - 3 ∧
    constructDiff (fun _ _ => 5) (fun _ _ => 3) 0 0 2 = 0 ∧
    (constructDiff (fun _ _ => 5) (fun _ _ => 3) 0 0 0 = 0 ∨
     constructDiff (fun _ _ => 5) (fun _ _ => 3) 0 0 1 = 0) ∧
    constructDiff (fun _ _ => 5) (fun _ _ => 3) 0 0 0 +
      constructDiff (fun _ _ => 5) (fun _ _ => 3) 0 0 1 = Nat.dist 5 3 :=
  c8_diff_channels (fun _ _ => 5) (fun _ _ => 3) 0 0 (by decide) (by decide)

/-- A 4×4×3 all-zero display buffer for claim C9: with nominal offset
`(10, 0)` and both tiles at the origin, the computed crop width is
`4 - 10 < 0`, so `set_images` takes its `NoOverlap` early return. -/
def bufC9 : Buf := ⟨4, 4, 3, fun _ _ _ => 0⟩

/-- C9, counterexample: a `set_images` call on a fresh session that fails
the overlap check (`crop width = 4 - |10| < 0`) still stores the left tile
reference: the session state is *not* left exactly as it was. -/
theorem c9_counterexample :
    ((bufC9.w : Int) - |(croppingXY (10, 0) (0, 0) (0, 0)).1| ≤ 0 ∨
     (bufC9.h : Int) - |(croppingXY (10, 0) (0, 0) (0, 0)).2| ≤ 0) ∧
    (setImages emptySession 1 2 bufC9 bufC9 (10, 0) (0, 0) (0, 0)).image ≠ emptySession.image :=
  ⟨by decide, by decide⟩

/-- C9 (amended): when the computed crop width or height is ≤ 0,
`set_images` logs and returns early: the alignment score, the four
displayed composites and the cached cropped arrays are left exactly as
they were, but the two tile references and the direction — assigned before
the overlap check — are already updated (a partial update). -/
theorem c9_no_overlap_partial_update (s : SessionState) (lid rid : Nat)
    (lbuf rbuf : Buf) (off pL pR : Int × Int)
    (hfail : (lbuf.w : Int) - |(croppingXY off pL pR).1| ≤ 0 ∨
             (lbuf.h : Int) - |(croppingXY off pL pR).2| ≤ 0) :
    setImages s lid rid lbuf rbuf off pL pR =
      { s with image := some lid, imageOther := some rid,
               direction := some (dirOfOffset off) } := by
  simp only [setImages]
  rw [if_pos hfail]

/-- C9, witness: the amended theorem at the counterexample's call. -/
theorem c9_witness :
    setImages emptySession 1 2 bufC9 bufC9 (10, 0) (0, 0) (0, 0) =
      { emptySession with image := some 1, imageOther := some 2,
                          direction := some (dirOfOffset (10, 0)) } :=
  c9_no_overlap_partial_update emptySession 1 2 bufC9 bufC9 (10, 0) (0, 0) (0, 0) (by decide)

end NebulaStudio
